import Mathlib

set_option maxHeartbeats 1000000
set_option maxRecDepth 4000

/-!
A shallow embedding of the ts-llvm lowering engine: the `LLVMGenerator` class of the
generator source file and `mangleFunctionDeclaration` of src/mangle.ts, together with
models of the external collaborators the generator drives (llvm-node IR builder,
symbol table, diagnostics, type resolver).  The generator state (module, builder
insertion point, value and block arenas, scope arena and stack, warning list) is
threaded through an explicit state-and-error monad `M`; TypeScript exceptions are
modelled as the error component, and, as in TypeScript, mutations performed before a
throw remain visible in the final state.
-/

/-- Source-level (TypeScript) types, as consumed by the type resolver. -/
inductive TsType
  | void
  | boolean
  | number
  | str
deriving DecidableEq

/-- The LLVM IR types this coverage set can produce. -/
inductive LLType
  | void
  | i1
  | i32
  | double
  | strStruct
deriving DecidableEq

/-- Modelled from the spec: the Type Resolver (types.ts getLLVMType, not under src/)
maps a source type to its IR representation; string maps to the fixed two-field
(pointer, length) aggregate. -/
def getLLVMType : TsType → LLType
  | .void => .void
  | .boolean => .i1
  | .number => .double
  | .str => .strStruct

/-- Embedding of mangleFunctionDeclaration (src/src/mangle.ts).  The TypeScript reads
`parentScope.name ? parentScope.name + "__" : ""`, so an absent scope name and the
empty string (falsy in TypeScript) both give an empty prefix. -/
def mangleFunctionDeclaration (declName : String) (scopeName : Option String) : String :=
  let prefixStr :=
    match scopeName with
    | some n => if n = "" then "" else n ++ "__"
    | none => ""
  prefixStr ++ declName

/-- Binary operator tokens: the two handled ones and a catch-all carrying the
ts.SyntaxKind label, mirroring the switch on operatorToken.kind. -/
inductive BinOp
  | equalsToken
  | plusToken
  | otherOp (kindName : String)
deriving DecidableEq

/-- The expression forms dispatched on by emitExpression, plus a numeric-literal form
and a catch-all (both fall to the default error case in the source). -/
inductive Expr
  | binary (op : BinOp) (lhs rhs : Expr)
  | call (callee : Expr) (args : List Expr)
  | propertyAccess (target : Expr) (propName : String)
  | ident (nm : String)
  | boolLit (b : Bool)
  | strLit (s : String)
  | numLit (text : String)
  | otherExpr (kindName : String)

/-- A function parameter: name and declared source type. -/
structure Param where
  pname : String
  ptype : TsType

/-- One variable declaration: name, constness (isConst from tsc-utils), the type the
checker reports at the declaration, and the initializer expression. -/
structure VarDeclT where
  vname : String
  isConst : Bool
  vtype : TsType
  init : Expr

/-- The node kinds dispatched on by emitNode, plus a catch-all carrying the
ts.SyntaxKind label (the default warning case in the source). -/
inductive Node
  | funcDecl (fname : String) (params : List Param) (retType : TsType) (body : Option (List Node))
  | moduleDecl (mname : String) (body : List Node)
  | block (stmts : List Node)
  | exprStmt (e : Expr)
  | ifStmt (cond : Expr) (thenS : Node) (elseS : Option Node)
  | returnStmt (e : Option Expr)
  | varStmt (decls : List VarDeclT)
  | endOfFile
  | otherNode (kindName : String)

/-- IR instructions emitted by this coverage set.  Operands are value ids, branch
targets are block ids. -/
inductive Instr
  | alloca (ty : LLType)
  | load (ptr : Nat)
  | store (v : Nat) (ptr : Nat)
  | fadd (l r : Nat)
  | call (f : Nat) (args : List Nat)
  | br (dest : Nat)
  | condBr (c : Nat) (thenB elseB : Nat)
  | ret (v : Nat)
  | retVoid
deriving DecidableEq

/-- Whether an instruction is a basic-block terminator. -/
def Instr.isTerminator : Instr → Bool
  | .br _ => true
  | .condBr _ _ _ => true
  | .ret _ => true
  | .retVoid => true
  | _ => false

/-- What an llvm.Value is in this embedding. -/
inductive ValKind
  | arg (fnIdx argIdx : Nat)
  | instr (i : Instr)
  | constInt (ty : LLType) (n : Nat)
  | constStruct (ty : LLType) (fields : List Nat)
  | globalStr (s : String)
  | funcRef (fnIdx : Nat)
deriving DecidableEq

/-- An llvm.Value object: a mutable name (empty means unnamed, as hasName reports)
and its payload. -/
structure ValObj where
  name : String
  kind : ValKind
deriving DecidableEq

/-- A basic block: label, owning function index, and its instruction list in block
order (instructions are value ids). -/
structure BlockObj where
  name : String
  parentFn : Nat
  instrs : List Nat
deriving DecidableEq

/-- An llvm.Function: linkage name, signature, argument value ids, and block ids in
creation order (the first one is the entry block). -/
structure LLFunction where
  name : String
  retType : LLType
  paramTypes : List LLType
  argIds : List Nat
  blockIds : List Nat
deriving DecidableEq

/-- A symbol-table binding: either an llvm.Value (by id) or a nested namespace scope
(by scope-arena index), as in the spec data model. -/
inductive BoundValue
  | val (id : Nat)
  | scope (idx : Nat)
deriving DecidableEq

/-- Modelled from the spec: a Scope frame (symbol-table.ts is not under src/): an
optional name (present for namespace scopes) and its bindings. -/
structure ScopeObj where
  name : Option String
  bindings : List (String × BoundValue)
deriving DecidableEq

/-- The fatal error taxonomy of the spec plus internal crash/fuel markers. -/
inductive Err
  | unsupported (msg : String)
  | unresolvedName (n : String)
  | verificationFailure (fnName : String)
  | builderError
  | outOfFuel
deriving DecidableEq

/-- The whole mutable world of one module lowering: value and block arenas (functions
from id, with counters for the next fresh id), the module function list, the builder
insertion point, the scope arena and the symbol-table stack, and recorded warnings. -/
structure GenState where
  numValues : Nat
  values : Nat → Option ValObj
  numBlocks : Nat
  blocks : Nat → Option BlockObj
  functions : List LLFunction
  insertPoint : Option Nat
  numScopes : Nat
  scopes : Nat → Option ScopeObj
  scopeStack : List Nat
  warnings : List String

/-- The lowering monad: state plus exceptions; a thrown error keeps the state
mutated so far, as TypeScript exceptions do. -/
def M (α : Type) : Type := GenState → Except Err α × GenState

/-- Monadic return for `M`. -/
def M.pure (a : α) : M α := fun st => (Except.ok a, st)

/-- Monadic bind for `M`: short-circuits on error, keeping the state. -/
def M.bind (x : M α) (f : α → M β) : M β := fun st =>
  match x st with
  | (Except.ok a, st2) => f a st2
  | (Except.error e, st2) => (Except.error e, st2)

instance : Monad M where
  pure := M.pure
  bind := M.bind

/-- Throw a fatal error. -/
def M.throw (e : Err) : M α := fun st => (Except.error e, st)

deriving instance DecidableEq for Except

/-- Allocate a fresh llvm.Value with the given name and payload; returns its id. -/
def newValue (nm : String) (k : ValKind) : M Nat := fun st =>
  (Except.ok st.numValues,
   { st with
       numValues := st.numValues + 1
       values := fun i => if i = st.numValues then some ⟨nm, k⟩ else st.values i })

/-- Read a value object (crash if the id is dangling). -/
def getValue (v : Nat) : M ValObj := fun st =>
  match st.values v with
  | some o => (Except.ok o, st)
  | none => (Except.error .builderError, st)

/-- value.name = nm (llvm.Value names are mutable). -/
def setValueName (v : Nat) (nm : String) : M Unit := fun st =>
  match st.values v with
  | some o =>
    (Except.ok (),
     { st with values := fun i => if i = v then some ⟨nm, o.kind⟩ else st.values i })
  | none => (Except.error .builderError, st)

/-- value.hasName(): whether the value carries a nonempty name. -/
def valueHasName (v : Nat) : M Bool := fun st =>
  match st.values v with
  | some o => (Except.ok (if o.name = "" then false else true), st)
  | none => (Except.error .builderError, st)

/-- builder.getInsertBlock(): the current insertion block (crash when unset, as the
TypeScript would dereference null). -/
def getInsertBlock : M Nat := fun st =>
  match st.insertPoint with
  | some b => (Except.ok b, st)
  | none => (Except.error .builderError, st)

/-- builder.setInsertionPoint(block). -/
def setInsertionPoint (b : Nat) : M Unit := fun st =>
  (Except.ok (), { st with insertPoint := some b })

/-- Read a block object (crash if the id is dangling). -/
def getBlockObj (b : Nat) : M BlockObj := fun st =>
  match st.blocks b with
  | some blk => (Except.ok blk, st)
  | none => (Except.error .builderError, st)

/-- Whether value id vid currently holds a terminator instruction. -/
def instrIsTerm (st : GenState) (vid : Nat) : Bool :=
  match st.values vid with
  | some o =>
    match o.kind with
    | .instr i => i.isTerminator
    | _ => false
  | none => false

/-- block.getTerminator(): the last instruction when it is a terminator, as LLVM
reports it, otherwise none. -/
def blockTerm (st : GenState) (blk : BlockObj) : Option Nat :=
  match blk.instrs.getLast? with
  | some lastId => if instrIsTerm st lastId then some lastId else none
  | none => none

/-- Monadic wrapper for block.getTerminator() on a block id. -/
def getTerminator (b : Nat) : M (Option Nat) := fun st =>
  match st.blocks b with
  | some blk => (Except.ok (blockTerm st blk), st)
  | none => (Except.error .builderError, st)

/-- Append an already-allocated instruction value at the end of a block. -/
def appendInstrToBlock (bid vid : Nat) : M Unit := fun st =>
  match st.blocks bid with
  | some blk =>
    (Except.ok (),
     { st with
         blocks := fun i =>
           if i = bid then some ⟨blk.name, blk.parentFn, blk.instrs ++ [vid]⟩
           else st.blocks i })
  | none => (Except.error .builderError, st)

/-- Emit one instruction at the current insertion point; returns its value id. -/
def emitInstr (nm : String) (ins : Instr) : M Nat := do
  let b ← getInsertBlock
  let v ← newValue nm (.instr ins)
  appendInstrToBlock b v
  pure v

/-- builder.createBr(dest). -/
def createBr (dest : Nat) : M Nat := emitInstr "" (.br dest)

/-- builder.createCondBr(cond, thenBlock, elseBlock). -/
def createCondBr (c thenB elseB : Nat) : M Nat := emitInstr "" (.condBr c thenB elseB)

/-- builder.createRet(value). -/
def createRet (v : Nat) : M Nat := emitInstr "" (.ret v)

/-- builder.createRetVoid(). -/
def createRetVoid : M Nat := emitInstr "" .retVoid

/-- builder.createStore(value, pointer); the returned id is the store instruction. -/
def createStore (v ptr : Nat) : M Nat := emitInstr "" (.store v ptr)

/-- builder.createLoad(pointer). -/
def createLoad (ptr : Nat) : M Nat := emitInstr "" (.load ptr)

/-- builder.createFAdd(lhs, rhs). -/
def createFAdd (l r : Nat) : M Nat := emitInstr "" (.fadd l r)

/-- builder.createCall(callee, args). -/
def createCall (f : Nat) (args : List Nat) : M Nat := emitInstr "" (.call f args)

/-- value instanceof llvm.AllocaInst. -/
def isAllocaVal (st : GenState) (v : Nat) : Bool :=
  match st.values v with
  | some o =>
    match o.kind with
    | .instr (.alloca _) => true
    | _ => false
  | none => false

/-- createLoadIfAlloca: insert a load when the value is a stack slot, otherwise pass
the value through unchanged. -/
def createLoadIfAlloca (v : Nat) : M Nat := fun st =>
  if isAllocaVal st v then createLoad v st else (Except.ok v, st)

/-- module.functions.length, used as the index of the next created function. -/
def getNumFunctions : M Nat := fun st => (Except.ok st.functions.length, st)

/-- Read a function record by index. -/
def getFunction (fnIdx : Nat) : M LLFunction := fun st =>
  match st.functions.get? fnIdx with
  | some fn => (Except.ok fn, st)
  | none => (Except.error .builderError, st)

/-- Allocate the argument values of a new function: k arguments starting at argument
index i, each a fresh unnamed value. -/
def createArgs (fnIdx : Nat) : Nat → Nat → M (List Nat)
  | _, 0 => pure []
  | i, k + 1 => do
    let a ← newValue "" (.arg fnIdx i)
    let rest ← createArgs fnIdx (i + 1) k
    pure (a :: rest)

/-- Register a completed function record into the module. -/
def appendFunction (fn : LLFunction) : M Unit := fun st =>
  (Except.ok (), { st with functions := st.functions ++ [fn] })

/-- llvm.Function.create(type, ExternalLinkage, name, module): creates the argument
values and the function record, and the function value itself; returns the pair of
function index and function value id. -/
def createFunction (nm : String) (retType : LLType) (paramTypes : List LLType) :
    M (Nat × Nat) := do
  let fnIdx ← getNumFunctions
  let argIds ← createArgs fnIdx 0 paramTypes.length
  appendFunction ⟨nm, retType, paramTypes, argIds, []⟩
  let fv ← newValue nm (.funcRef fnIdx)
  pure (fnIdx, fv)

/-- llvm.BasicBlock.create(context, name, parentFunction): a fresh empty block
appended to the function's block list; returns the block id. -/
def basicBlockCreate (nm : String) (fnIdx : Nat) : M Nat := fun st =>
  match st.functions.get? fnIdx with
  | some fn =>
    (Except.ok st.numBlocks,
     { st with
         numBlocks := st.numBlocks + 1
         blocks := fun i => if i = st.numBlocks then some ⟨nm, fnIdx, []⟩ else st.blocks i
         functions :=
           st.functions.set fnIdx
             ⟨fn.name, fn.retType, fn.paramTypes, fn.argIds, fn.blockIds ++ [st.numBlocks]⟩ })
  | none => (Except.error .builderError, st)

/-- function.getEntryBlock(): the first created block (crash when there is none, as
the TypeScript non-null assertion would). -/
def getEntryBlock (fnIdx : Nat) : M Nat := fun st =>
  match st.functions.get? fnIdx with
  | some fn =>
    match fn.blockIds.head? with
    | some b => (Except.ok b, st)
    | none => (Except.error .builderError, st)
  | none => (Except.error .builderError, st)

/-- The currentFunction getter: parent function of the insertion block. -/
def currentFunction : M Nat := do
  let b ← getInsertBlock
  let blk ← getBlockObj b
  pure blk.parentFn

/-- createEntryBlockAlloca: `new llvm.IRBuilder(entryBlock)` positions a fresh
builder at the END of the entry block, so the alloca is appended after every
instruction already there, a terminator included.  The main builder's insertion
point is untouched. -/
def createEntryBlockAlloca (ty : LLType) (nm : String) : M Nat := do
  let fnIdx ← currentFunction
  let entry ← getEntryBlock fnIdx
  let v ← newValue nm (.instr (.alloca ty))
  appendInstrToBlock entry v
  pure v

/-- A block is structurally well formed when it is nonempty, its last instruction is
a terminator, and no earlier instruction is one. -/
def blockWellFormed (st : GenState) (bid : Nat) : Bool :=
  match st.blocks bid with
  | some blk =>
    match blk.instrs.getLast? with
    | some lastId => instrIsTerm st lastId && blk.instrs.dropLast.all (fun i => ! instrIsTerm st i)
    | none => false
  | none => false

/-- Modelled from the spec: llvm.verifyFunction — the per-function structural
well-formedness check; a failure is fatal (spec section 7, VerificationFailure). -/
def verifyFunction (fnIdx : Nat) : M Unit := fun st =>
  match st.functions.get? fnIdx with
  | some fn =>
    if fn.blockIds.all (fun b => blockWellFormed st b) then (Except.ok (), st)
    else (Except.error (.verificationFailure fn.name), st)
  | none => (Except.error .builderError, st)

/-- Association-list lookup inside one scope's binding list. -/
def lookupBinding : List (String × BoundValue) → String → Option BoundValue
  | [], _ => none
  | (m, w) :: rest, n => if m = n then some w else lookupBinding rest n

/-- Association-list insert-or-overwrite for one scope's binding list. -/
def setBinding : List (String × BoundValue) → String → BoundValue → List (String × BoundValue)
  | [], n, v => [(n, v)]
  | (m, w) :: rest, n, v => if m = n then (n, v) :: rest else (m, w) :: setBinding rest n v

/-- Allocate a fresh scope frame in the arena (new Scope(name)); not pushed on the
symbol-table stack. -/
def allocScope (nm : Option String) : M Nat := fun st =>
  (Except.ok st.numScopes,
   { st with
       numScopes := st.numScopes + 1
       scopes := fun i => if i = st.numScopes then some ⟨nm, []⟩ else st.scopes i })

/-- Read a scope's optional name. -/
def getScopeName (idx : Nat) : M (Option String) := fun st =>
  match st.scopes idx with
  | some sc => (Except.ok sc.name, st)
  | none => (Except.error .builderError, st)

/-- Modelled from the spec: Scope.set (symbol-table.ts is not under src/) — insert or
overwrite a binding in the given frame (spec 4.1 bind). -/
def scopeSet (idx : Nat) (nm : String) (v : BoundValue) : M Unit := fun st =>
  match st.scopes idx with
  | some sc =>
    (Except.ok (),
     { st with
         scopes := fun i =>
           if i = idx then some ⟨sc.name, setBinding sc.bindings nm v⟩ else st.scopes i })
  | none => (Except.error .builderError, st)

/-- Modelled from the spec: Scope.get used for qualified access — looks the name up
directly inside the one frame, with no ancestor search (spec 4.1 qualifiedResolve). -/
def scopeGetDirect (idx : Nat) (nm : String) : M BoundValue := fun st =>
  match st.scopes idx with
  | some sc =>
    match lookupBinding sc.bindings nm with
    | some v => (Except.ok v, st)
    | none => (Except.error (.unresolvedName nm), st)
  | none => (Except.error .builderError, st)

/-- Walk the symbol-table stack from the innermost frame to the global one. -/
def resolveInStack (st : GenState) : List Nat → String → Option BoundValue
  | [], _ => none
  | i :: rest, nm =>
    match st.scopes i with
    | some sc =>
      match lookupBinding sc.bindings nm with
      | some v => some v
      | none => resolveInStack st rest nm
    | none => resolveInStack st rest nm

/-- Modelled from the spec: SymbolTable.get — resolves through the current frame and
its ancestors, failing with UnresolvedName when absent everywhere (spec 4.1). -/
def symbolTableGet (nm : String) : M BoundValue := fun st =>
  match resolveInStack st st.scopeStack nm with
  | some v => (Except.ok v, st)
  | none => (Except.error (.unresolvedName nm), st)

/-- Drop the innermost frame from the symbol-table stack. -/
def popScopeState (st : GenState) : GenState :=
  { st with scopeStack := st.scopeStack.tail }

/-- Modelled from the spec: SymbolTable.withScope — create a child frame, run the
body against it, and discard the frame afterwards whatever the outcome (spec 3,
scope lifecycle). -/
def withScope (nm : Option String) (k : Nat → M α) : M α := fun st =>
  match allocScope nm st with
  | (Except.ok idx, st1) =>
    match k idx { st1 with scopeStack := idx :: st1.scopeStack } with
    | (r, st2) => (r, popScopeState st2)
  | (Except.error e, st1) => (Except.error e, st1)

/-- Modelled from the spec: diagnostics.warn — recoverable; the message is recorded
and lowering continues (spec section 7, UnhandledSyntax). -/
def warn (msg : String) : M Unit := fun st =>
  (Except.ok (), { st with warnings := st.warnings ++ [msg] })

/-- Modelled from the spec: diagnostics.error — fatal and propagated (spec section 7,
UnsupportedExpression). -/
def errorV (msg : String) : M Nat := fun st => (Except.error (.unsupported msg), st)

/-- emitFoo: position at the destination block, lower the optional statement, and
branch to the continuation when the resulting block still lacks a terminator. -/
def emitFoo (emitN : Node → Nat → M Unit) (blockS : Option Node)
    (destination continuation parentScope : Nat) : M Unit := do
  setInsertionPoint destination
  (match blockS with
   | some n => emitN n parentScope
   | none => pure ())
  let ib ← getInsertBlock
  let t ← getTerminator ib
  match t with
  | none => do
    let _ ← createBr continuation
    pure ()
  | some _ => pure ()

/-- Lower a list of expressions left to right (arguments of a call). -/
def emitEach (emitE : Expr → M Nat) : List Expr → M (List Nat)
  | [] => pure []
  | e :: rest => do
    let v ← emitE e
    let vs ← emitEach emitE rest
    pure (v :: vs)

/-- emitCallExpression: callee first, then the arguments left to right, then the
call instruction. -/
def emitCallExpression (emitE : Expr → M Nat) (callee : Expr) (args : List Expr) : M Nat := do
  let c ← emitE callee
  let avs ← emitEach emitE args
  createCall c avs

/-- emitPropertyAccessExpression: only a bare identifier resolving to a namespace
scope is supported, and the property is then looked up directly inside that scope;
everything else falls to the fatal object-property-access error.  (When the member
is itself a scope the TypeScript returns it through an unchecked cast; the typed
embedding reports the same fatal error instead — no claim depends on that corner.) -/
def emitPropertyAccessExpression (target : Expr) (propName : String) : M Nat :=
  match target with
  | .ident nm => do
    let v ← symbolTableGet nm
    match v with
    | .scope sIdx => do
      let m ← scopeGetDirect sIdx propName
      match m with
      | .val id => pure id
      | .scope _ => errorV "Object property access not implemented yet"
    | .val _ => errorV "Object property access not implemented yet"
  | _ => errorV "Object property access not implemented yet"

/-- emitIdentifier: resolve through the symbol table.  (A name bound to a scope would
be returned through an unchecked cast in TypeScript; the typed embedding throws — no
claim depends on that corner.) -/
def emitIdentifier (nm : String) : M Nat := do
  let v ← symbolTableGet nm
  match v with
  | .val id => pure id
  | .scope _ => M.throw (.unsupported "scope value used as an llvm value")

/-- emitBooleanLiteral: ConstantInt.getTrue / getFalse. -/
def emitBooleanLiteral (b : Bool) : M Nat :=
  newValue "" (.constInt .i1 (if b then 1 else 0))

/-- emitStringLiteral: a global character buffer, the length constant, and the
(pointer, length) aggregate. -/
def emitStringLiteral (s : String) : M Nat := do
  let ptr ← newValue "" (.globalStr s)
  let len ← newValue "" (.constInt .i32 s.length)
  newValue "" (.constStruct .strStruct [ptr, len])

/-- emitBinaryExpression: both sides are lowered first; assignment stores the
load-resolved right side into the raw left side and returns the store instruction;
plus load-resolves both sides and emits a floating add; any other operator is a
fatal error carrying the operator kind label. -/
def emitBinaryExpression (emitE : Expr → M Nat) (op : BinOp) (lhs rhs : Expr) : M Nat := do
  let left ← emitE lhs
  let right ← emitE rhs
  match op with
  | .equalsToken => do
    let rv ← createLoadIfAlloca right
    createStore rv left
  | .plusToken => do
    let lv ← createLoadIfAlloca left
    let rv ← createLoadIfAlloca right
    createFAdd lv rv
  | .otherOp k => errorV ("Unhandled ts.BinaryExpression operator " ++ k)

/-- emitExpression, one dispatch level: the recursive occurrences are abstracted as
emitE.  Numeric literals and every unlisted kind fall to the fatal default case. -/
def emitExpressionF (emitE : Expr → M Nat) : Expr → M Nat
  | .binary op l r => emitBinaryExpression emitE op l r
  | .call c args => emitCallExpression emitE c args
  | .propertyAccess t p => emitPropertyAccessExpression t p
  | .ident nm => emitIdentifier nm
  | .boolLit b => emitBooleanLiteral b
  | .strLit s => emitStringLiteral s
  | .numLit _ => errorV "Unhandled ts.Expression NumericLiteral"
  | .otherExpr k => errorV ("Unhandled ts.Expression " ++ k)

/-- emitExpressionStatement: lower the expression, discard its value. -/
def emitExpressionStatement (emitE : Expr → M Nat) (e : Expr) : M Unit := do
  let _ ← emitE e
  pure ()

/-- emitReturnStatement: with an expression, load-resolve it and emit a value
return; without one, emit a void return. -/
def emitReturnStatement (emitE : Expr → M Nat) : Option Expr → M Unit
  | some e => do
    let v ← emitE e
    let v2 ← createLoadIfAlloca v
    let _ ← createRet v2
    pure ()
  | none => do
    let _ ← createRetVoid
    pure ()

/-- The per-declaration body of emitVariableStatement: lower and load-resolve the
initializer; a const binding is bound directly (named only when still unnamed); a
mutable one gets an entry-block stack slot, a store, and the slot is bound. -/
def emitVarDecl (emitE : Expr → M Nat) (d : VarDeclT) (parentScope : Nat) : M Unit := do
  let v0 ← emitE d.init
  let initVal ← createLoadIfAlloca v0
  if d.isConst then do
    let hn ← valueHasName initVal
    if hn then pure () else setValueName initVal d.vname
    scopeSet parentScope d.vname (.val initVal)
  else do
    let alloca ← createEntryBlockAlloca (getLLVMType d.vtype) d.vname
    let _ ← createStore initVal alloca
    scopeSet parentScope d.vname (.val alloca)

/-- emitVariableStatement: every declaration of the statement in order. -/
def emitVariableStatement (emitE : Expr → M Nat) : List VarDeclT → Nat → M Unit
  | [], _ => pure ()
  | d :: rest, parentScope => do
    emitVarDecl emitE d parentScope
    emitVariableStatement emitE rest parentScope

/-- emitIfStatement: lower the condition, create then/else/endif blocks in the
current function, emit the conditional branch, lower both branches through emitFoo
with endif as the continuation, and reposition at endif. -/
def emitIfStatement (emitN : Node → Nat → M Unit) (emitE : Expr → M Nat)
    (cond : Expr) (thenS : Node) (elseS : Option Node) (parentScope : Nat) : M Unit := do
  let condition ← emitE cond
  let fnIdx ← currentFunction
  let thenBlock ← basicBlockCreate "then" fnIdx
  let elseBlock ← basicBlockCreate "else" fnIdx
  let endBlock ← basicBlockCreate "endif" fnIdx
  let _ ← createCondBr condition thenBlock elseBlock
  emitFoo emitN (some thenS) thenBlock endBlock parentScope
  emitFoo emitN elseS elseBlock endBlock parentScope
  setInsertionPoint endBlock

/-- forEachChild over the statements or declarations of a construct, in order. -/
def forEachChild (emitN : Node → Nat → M Unit) : List Node → Nat → M Unit
  | [], _ => pure ()
  | n :: rest, sc => do
    emitN n sc
    forEachChild emitN rest sc

/-- emitBlock: an anonymous child scope around the statements. -/
def emitBlock (emitN : Node → Nat → M Unit) (stmts : List Node) : M Unit :=
  withScope none (fun sc => forEachChild emitN stmts sc)

/-- emitModuleDeclaration: a named scope (not pushed on the symbol-table stack),
members lowered against it, then the scope bound into the parent under the
namespace's simple name. -/
def emitModuleDeclaration (emitN : Node → Nat → M Unit) (mname : String)
    (body : List Node) (parentScope : Nat) : M Unit := do
  let sIdx ← allocScope (some mname)
  forEachChild emitN body sIdx
  scopeSet parentScope mname (.scope sIdx)

/-- The block-termination fixup of emitFunctionDeclaration (the if at the end of the
body case): when the current insertion block lacks a terminator, emit ret void for a
void return type; otherwise do nothing — the unreachable marking is a TODO left
unimplemented in the source. -/
def ensureTerminated (retType : LLType) : M Unit := do
  let ib ← getInsertBlock
  let t ← getTerminator ib
  match t with
  | none =>
    if retType = .void then do
      let _ ← createRetVoid
      pure ()
    else
      pure ()
  | some _ => pure ()

/-- Bind each parameter name to its positional argument value and name the
argument, as the zip loop of emitFunctionDeclaration does. -/
def bindParams : List (Param × Nat) → Nat → M Unit
  | [], _ => pure ()
  | (p, a) :: rest, bodyScope => do
    setValueName a p.pname
    scopeSet bodyScope p.pname (.val a)
    bindParams rest bodyScope

/-- emitFunctionDeclaration: resolve the signature, create the externally linked
function under its mangled name; when a body is present, enter a scope named by the
mangled name, bind the parameters, create and position at the entry block, lower the
body statements, and run the termination fixup; then verify the function and bind
its value into the parent scope under the simple name. -/
def emitFunctionDeclaration (emitN : Node → Nat → M Unit) (fname : String)
    (params : List Param) (retTs : TsType) (body : Option (List Node))
    (parentScope : Nat) : M Unit := do
  let retType := getLLVMType retTs
  let paramTypes := params.map (fun p => getLLVMType p.ptype)
  let psName ← getScopeName parentScope
  let qualifiedName := mangleFunctionDeclaration fname psName
  let fr ← createFunction qualifiedName retType paramTypes
  match body with
  | some stmts =>
    withScope (some qualifiedName) (fun bodyScope => do
      let fn ← getFunction fr.1
      bindParams (params.zip fn.argIds) bodyScope
      let entryBlock ← basicBlockCreate "entry" fr.1
      setInsertionPoint entryBlock
      forEachChild emitN stmts bodyScope
      ensureTerminated retType)
  | none => pure ()
  verifyFunction fr.1
  scopeSet parentScope fname (.val fr.2)

/-- emitNode, one dispatch level: statement and declaration kinds, with unhandled
kinds falling to the recoverable warning case. -/
def emitNodeF (emitN : Node → Nat → M Unit) (emitE : Expr → M Nat) : Node → Nat → M Unit
  | .funcDecl nm ps rt body, parentScope => emitFunctionDeclaration emitN nm ps rt body parentScope
  | .moduleDecl nm body, parentScope => emitModuleDeclaration emitN nm body parentScope
  | .block stmts, _ => emitBlock emitN stmts
  | .exprStmt e, _ => emitExpressionStatement emitE e
  | .ifStmt c t e, parentScope => emitIfStatement emitN emitE c t e parentScope
  | .returnStmt e, _ => emitReturnStatement emitE e
  | .varStmt ds, parentScope => emitVariableStatement emitE ds parentScope
  | .endOfFile, _ => pure ()
  | .otherNode k, _ => warn ("Unhandled ts.Node " ++ k)

/-- The generator's emitExpression, with a structural fuel bound on recursion depth
(expressions never contain statements, so this recursion stands alone). -/
def emitExpression : Nat → Expr → M Nat
  | 0, _ => M.throw .outOfFuel
  | f + 1, e => emitExpressionF (emitExpression f) e

/-- The generator's emitNode, with a structural fuel bound on statement nesting
depth; expressions inside a statement get the same fuel. -/
def emitNode : Nat → Node → Nat → M Unit
  | 0, _, _ => M.throw .outOfFuel
  | f + 1, n, sc => emitNodeF (emitNode f) (emitExpression (f + 1)) n sc

/-- A fresh generator state: empty module, unset insertion point, one unnamed global
scope on the symbol-table stack. -/
def initialState : GenState where
  numValues := 0
  values := fun _ => none
  numBlocks := 0
  blocks := fun _ => none
  functions := []
  insertPoint := none
  numScopes := 1
  scopes := fun i => if i = 0 then some ⟨none, []⟩ else none
  scopeStack := [0]
  warnings := []

/-- emitSourceFile: every top-level node against the global scope. -/
def emitSourceFile (fuel : Nat) (nodes : List Node) : M Unit :=
  forEachChild (emitNode fuel) nodes 0

/-- Unfolding lemma tying the Monad instance's bind to M.bind. -/
theorem bind_def (x : M α) (f : α → M β) : x >>= f = M.bind x f := rfl

/-- Unfolding lemma tying the Monad instance's pure to M.pure. -/
theorem pure_def (a : α) : (pure a : M α) = M.pure a := rfl

attribute [simp] bind_def pure_def M.bind M.pure M.throw newValue getValue setValueName
  valueHasName getInsertBlock setInsertionPoint getBlockObj instrIsTerm blockTerm getTerminator
  appendInstrToBlock emitInstr createBr createCondBr createRet createRetVoid createStore
  createLoad createFAdd createCall isAllocaVal createLoadIfAlloca getNumFunctions getFunction
  createArgs appendFunction createFunction basicBlockCreate getEntryBlock currentFunction
  createEntryBlockAlloca blockWellFormed verifyFunction lookupBinding setBinding allocScope
  getScopeName scopeSet scopeGetDirect resolveInStack symbolTableGet popScopeState withScope
  warn errorV emitFoo emitEach emitCallExpression emitPropertyAccessExpression emitIdentifier
  emitBooleanLiteral emitStringLiteral emitBinaryExpression emitExpressionF
  emitExpressionStatement emitReturnStatement emitVarDecl emitVariableStatement emitIfStatement
  forEachChild emitBlock emitModuleDeclaration ensureTerminated bindParams
  emitFunctionDeclaration emitNodeF emitExpression emitNode initialState emitSourceFile
  getLLVMType mangleFunctionDeclaration Instr.isTerminator

/-- Run a bind whose first action is known to succeed. -/
theorem M.bind_run {α β : Type} {x : M α} {f : α → M β} {st st1 : GenState} {a : α}
    (h : x st = (Except.ok a, st1)) : M.bind x f st = f a st1 := by
  simp [M.bind, h]

/-- The state after emitting one new instruction at block bid whose object is blk:
a fresh value holding the instruction, appended at the end of that block. -/
def withNewInstr (st : GenState) (bid : Nat) (blk : BlockObj) (nm : String) (ins : Instr) :
    GenState :=
  { st with
      numValues := st.numValues + 1
      values := fun i => if i = st.numValues then some ⟨nm, .instr ins⟩ else st.values i
      blocks := fun i =>
        if i = bid then some ⟨blk.name, blk.parentFn, blk.instrs ++ [st.numValues]⟩
        else st.blocks i }

/-- Running emitInstr at a valid insertion point appends exactly one instruction
value to the insertion block and returns its id. -/
theorem emitInstr_run (nm : String) (ins : Instr) (st : GenState) (ib : Nat) (blk : BlockObj)
    (hib : st.insertPoint = some ib) (hblk : st.blocks ib = some blk) :
    emitInstr nm ins st = (Except.ok st.numValues, withNewInstr st ib blk nm ins) := by
  simp only [emitInstr, bind_def, M.bind, getInsertBlock, hib, newValue, appendInstrToBlock,
    pure_def, M.pure, withNewInstr]
  simp [hblk]

/-- Looking up the name just written by setBinding returns the new value. -/
theorem lookupBinding_setBinding (bs : List (String × BoundValue)) (n : String) (v : BoundValue) :
    lookupBinding (setBinding bs n v) n = some v := by
  induction bs with
  | nil => simp [setBinding, lookupBinding]
  | cons hd tl ih =>
    obtain ⟨m, w⟩ := hd
    by_cases h : m = n
    · simp [setBinding, lookupBinding, h]
    · simp [setBinding, lookupBinding, h, ih]

/-- createArgs only allocates values: it returns some id list and a state that
differs from the input only in numValues (advanced by the argument count) and the
values map. -/
theorem createArgs_run (fnIdx i k : Nat) (st : GenState) :
    ∃ l vf, createArgs fnIdx i k st =
      (Except.ok l, { st with numValues := st.numValues + k, values := vf }) := by
  induction k generalizing i st with
  | zero => exact ⟨[], st.values, rfl⟩
  | succ k ih =>
    obtain ⟨l, vf, h⟩ := ih (i + 1)
      { st with
          numValues := st.numValues + 1
          values := fun j => if j = st.numValues then some ⟨"", .arg fnIdx i⟩ else st.values j }
    refine ⟨st.numValues :: l, vf, ?_⟩
    simp only [createArgs, bind_def, M.bind, newValue, pure_def, M.pure]
    rw [h]
    have hn : st.numValues + 1 + k = st.numValues + (k + 1) := by omega
    simp [hn]

/-- Running createFunction: the new function record is appended to the module, its
argument values and then the function value are allocated (the function value id is
st.numValues + pts.length), and no other state component changes. -/
theorem createFunction_run (nm : String) (rt : LLType) (pts : List LLType) (st : GenState) :
    ∃ (l : List Nat) (vf : Nat → Option ValObj), createFunction nm rt pts st =
      (Except.ok (st.functions.length, st.numValues + pts.length),
       { st with
           numValues := st.numValues + pts.length + 1
           values := fun i =>
             if i = st.numValues + pts.length then some ⟨nm, .funcRef st.functions.length⟩
             else vf i
           functions := st.functions ++ [⟨nm, rt, pts, l, []⟩] }) := by
  obtain ⟨l, vf, hargs⟩ := createArgs_run st.functions.length 0 pts.length st
  refine ⟨l, vf, ?_⟩
  simp only [createFunction, bind_def, M.bind, getNumFunctions]
  rw [hargs]
  simp [appendFunction, newValue, pure_def, M.pure]

/-- A small concrete generator state used by witnesses: one constant value, one
function with an empty entry block and an empty current block, insertion point at
the current block, and the global scope. -/
def testState : GenState where
  numValues := 1
  values := fun i => if i = 0 then some ⟨"", .constInt .i1 1⟩ else none
  numBlocks := 2
  blocks := fun i =>
    if i = 0 then some ⟨"entry", 0, []⟩ else if i = 1 then some ⟨"body", 0, []⟩ else none
  functions := [⟨"f", .void, [], [], [0, 1]⟩]
  insertPoint := some 1
  numScopes := 1
  scopes := fun i => if i = 0 then some ⟨none, []⟩ else none
  scopeStack := [0]
  warnings := []

/-- C5: mangling is a pure, deterministic function of the simple name and the
enclosing scope's name: repeated calls agree, the unnamed global scope leaves the
name unchanged, and a scope named M yields M__f. -/
theorem claim_C5_mangling :
    (∀ (n : String) (s : Option String),
      mangleFunctionDeclaration n s = mangleFunctionDeclaration n s)
    ∧ mangleFunctionDeclaration "f" none = "f"
    ∧ mangleFunctionDeclaration "f" (some "M") = "M__f" := by
  refine ⟨fun n s => rfl, by simp [mangleFunctionDeclaration], by simp [mangleFunctionDeclaration]⟩

/-- C1 counterexample: lowering `function f(): boolean {}` (declared non-void, body
present, final path without a return) fails the per-function verification and leaves
the entry block with no instructions at all — in particular no unreachable marker and
no terminator, contradicting the claim that the path is marked unreachable rather
than left unterminated. -/
theorem claim_C1_counterexample :
    (emitFunctionDeclaration (emitNode 5) "f" [] TsType.boolean (some []) 0 initialState).1
      = Except.error (Err.verificationFailure "f")
    ∧ (emitFunctionDeclaration (emitNode 5) "f" [] TsType.boolean (some []) 0
        initialState).2.blocks 0 = some ⟨"entry", 0, []⟩ := by
  constructor
  · simp
  · simp

/-- C1 (amended): the termination fixup at the end of a lowered body — when the
current insertion block lacks a terminator, a void return is emitted for a void
return type, and otherwise nothing is emitted and the block is left unterminated
(the unreachable marking is an unimplemented TODO in the source). -/
theorem claim_C1_amended (retType : LLType) (st : GenState) (ib : Nat) (blk : BlockObj)
    (hib : st.insertPoint = some ib) (hblk : st.blocks ib = some blk)
    (hterm : blockTerm st blk = none) :
    ensureTerminated retType st =
      (Except.ok (),
       if retType = .void then withNewInstr st ib blk "" .retVoid else st) := by
  simp only [ensureTerminated, bind_def, M.bind, getInsertBlock, hib, getTerminator, hblk, hterm]
  by_cases hrt : retType = .void
  · simp only [hrt, if_pos, createRetVoid, bind_def]
    rw [M.bind_run (emitInstr_run "" .retVoid st ib blk hib hblk)]
    simp
  · simp [hrt]

/-- Witness for C1 (amended): a non-void return type at an unterminated block leaves
the state unchanged. -/
theorem claim_C1_amended_witness :
    ensureTerminated LLType.i1 testState = (Except.ok (), testState) :=
  claim_C1_amended LLType.i1 testState 1 ⟨"body", 0, []⟩ rfl rfl rfl

/-- C4: the branch-lowering helper emitFoo — the optional statement is lowered with
the builder positioned at the destination block, and afterwards, when the current
block still lacks a terminator, exactly one unconditional branch to the continuation
is appended; when it already has one, nothing is appended. -/
theorem claim_C4_emitFoo_contract (emitN : Node → Nat → M Unit) (blockS : Option Node)
    (destination continuation parentScope : Nat) (st st1 : GenState) (ib : Nat) (blk : BlockObj)
    (hrun : (match blockS with
             | some n => emitN n parentScope
             | none => (pure () : M Unit)) { st with insertPoint := some destination }
            = (Except.ok (), st1))
    (hib : st1.insertPoint = some ib) (hblk : st1.blocks ib = some blk) :
    emitFoo emitN blockS destination continuation parentScope st =
      (Except.ok (),
       if (blockTerm st1 blk).isNone then withNewInstr st1 ib blk "" (.br continuation)
       else st1) := by
  simp only [emitFoo, bind_def, M.bind, setInsertionPoint]
  rw [hrun]
  simp only [getInsertBlock, hib, getTerminator, hblk]
  cases hbt : blockTerm st1 blk with
  | none =>
    simp only [createBr, bind_def]
    rw [M.bind_run (emitInstr_run "" (.br continuation) st1 ib blk hib hblk)]
    simp
  | some t => simp

/-- Witness for C4: an absent statement at an empty destination block falls through
with a single branch to the continuation. -/
theorem claim_C4_emitFoo_contract_witness :
    emitFoo (fun _ _ => M.pure ()) none 1 0 0 testState =
      (Except.ok (),
       withNewInstr { testState with insertPoint := some 1 } 1 ⟨"body", 0, []⟩ ""
         (Instr.br 0)) :=
  claim_C4_emitFoo_contract (fun _ _ => M.pure ()) none 1 0 0 testState
    { testState with insertPoint := some 1 } 1 ⟨"body", 0, []⟩ rfl rfl rfl

/-- The C2 failing input: `if (c) { let x = true; }` — a mutable declaration lowered
inside the then-branch, after the entry block has already been terminated by the
conditional branch. -/
def allocaAfterTermInput : Node :=
  .ifStmt (.ident "c") (.block [.varStmt [⟨"x", false, .boolean, .boolLit true⟩]]) none

/-- C2: lowering `function f(c: boolean): void { if (c) { let x = true; } }` appends
the stack-slot alloca for x (value 4) to the entry block AFTER its conditional-branch
terminator (value 2), so the entry block holds an instruction past its terminator and
the per-function verification fails — the invariant the claim states is violated by
the code. -/
theorem claim_C2_alloca_after_terminator :
    (emitFunctionDeclaration (emitNode 8) "f" [⟨"c", .boolean⟩] .void
        (some [allocaAfterTermInput]) 0 initialState).1
      = Except.error (Err.verificationFailure "f")
    ∧ (emitFunctionDeclaration (emitNode 8) "f" [⟨"c", .boolean⟩] .void
        (some [allocaAfterTermInput]) 0 initialState).2.blocks 0
      = some ⟨"entry", 0, [2, 4]⟩
    ∧ (emitFunctionDeclaration (emitNode 8) "f" [⟨"c", .boolean⟩] .void
        (some [allocaAfterTermInput]) 0 initialState).2.values 2
      = some ⟨"", .instr (.condBr 0 1 2)⟩
    ∧ (emitFunctionDeclaration (emitNode 8) "f" [⟨"c", .boolean⟩] .void
        (some [allocaAfterTermInput]) 0 initialState).2.values 4
      = some ⟨"x", .instr (.alloca .i1)⟩
    ∧ Instr.isTerminator (.condBr 0 1 2) = true
    ∧ Instr.isTerminator (.alloca .i1) = false := by
  refine ⟨?_, ?_, ?_, ?_, rfl, rfl⟩
  · simp [allocaAfterTermInput]
  · simp [allocaAfterTermInput]
  · simp [allocaAfterTermInput]
  · simp [allocaAfterTermInput]

/-- The if-statement of the C3 claim, exactly as the spec writes it:
`if (c) { return 1; } else { return 2; }`. -/
def ifReturnNumbers : Node :=
  .ifStmt (.ident "c")
    (.block [.returnStmt (some (.numLit "1"))])
    (some (.block [.returnStmt (some (.numLit "2"))]))

/-- C3 counterexample: lowering the claim's input aborts fatally on the numeric
literal (emitExpression has no case for it), leaving the then and else blocks empty —
in particular neither terminates with a return, contrary to the claim. -/
theorem claim_C3_counterexample :
    (emitFunctionDeclaration (emitNode 8) "f" [⟨"c", .boolean⟩] .number
        (some [ifReturnNumbers]) 0 initialState).1
      = Except.error (Err.unsupported "Unhandled ts.Expression NumericLiteral")
    ∧ (emitFunctionDeclaration (emitNode 8) "f" [⟨"c", .boolean⟩] .number
        (some [ifReturnNumbers]) 0 initialState).2.blocks 1
      = some ⟨"then", 0, []⟩
    ∧ (emitFunctionDeclaration (emitNode 8) "f" [⟨"c", .boolean⟩] .number
        (some [ifReturnNumbers]) 0 initialState).2.blocks 2
      = some ⟨"else", 0, []⟩ := by
  refine ⟨?_, ?_, ?_⟩
  · simp [ifReturnNumbers]
  · simp [ifReturnNumbers]
  · simp [ifReturnNumbers]

/-- The amended C3 input: boolean literals in place of the unlowerable numeric
literals — `if (c) { return true; } else { return false; }`. -/
def ifReturnBooleans : Node :=
  .ifStmt (.ident "c")
    (.block [.returnStmt (some (.boolLit true))])
    (some (.block [.returnStmt (some (.boolLit false))]))

/-- C3 (amended): for `if (c) { return true; } else { return false; }` lowered inside
a function, the generated function has exactly four blocks — entry (holding the
conditional branch), then, else, and endif — and the then and else blocks each end in
a return instruction (values 4 and 6), not in a fallthrough branch to endif. -/
theorem claim_C3_amended :
    (emitFunctionDeclaration (emitNode 8) "f" [⟨"c", .boolean⟩] .boolean
        (some [ifReturnBooleans]) 0 initialState).2.numBlocks = 4
    ∧ ((emitFunctionDeclaration (emitNode 8) "f" [⟨"c", .boolean⟩] .boolean
        (some [ifReturnBooleans]) 0 initialState).2.functions.get? 0).map
          (fun f => f.blockIds) = some [0, 1, 2, 3]
    ∧ (emitFunctionDeclaration (emitNode 8) "f" [⟨"c", .boolean⟩] .boolean
        (some [ifReturnBooleans]) 0 initialState).2.blocks 0 = some ⟨"entry", 0, [2]⟩
    ∧ (emitFunctionDeclaration (emitNode 8) "f" [⟨"c", .boolean⟩] .boolean
        (some [ifReturnBooleans]) 0 initialState).2.blocks 1 = some ⟨"then", 0, [4]⟩
    ∧ (emitFunctionDeclaration (emitNode 8) "f" [⟨"c", .boolean⟩] .boolean
        (some [ifReturnBooleans]) 0 initialState).2.blocks 2 = some ⟨"else", 0, [6]⟩
    ∧ (emitFunctionDeclaration (emitNode 8) "f" [⟨"c", .boolean⟩] .boolean
        (some [ifReturnBooleans]) 0 initialState).2.blocks 3 = some ⟨"endif", 0, []⟩
    ∧ (emitFunctionDeclaration (emitNode 8) "f" [⟨"c", .boolean⟩] .boolean
        (some [ifReturnBooleans]) 0 initialState).2.values 4 = some ⟨"", .instr (.ret 3)⟩
    ∧ (emitFunctionDeclaration (emitNode 8) "f" [⟨"c", .boolean⟩] .boolean
        (some [ifReturnBooleans]) 0 initialState).2.values 6 = some ⟨"", .instr (.ret 5)⟩ := by
  refine ⟨?_, ?_, ?_, ?_, ?_, ?_, ?_, ?_⟩
  all_goals simp [ifReturnBooleans]

/-- C10: for an assignment a = b, after both sides are lowered and the right side is
load-resolved, the value returned by emitBinaryExpression is the id of the freshly
emitted store instruction (not the right-hand value), and the store's target operand
is the raw left-hand value, which is never load-resolved. -/
theorem claim_C10_assignment_result (emitE : Expr → M Nat) (lhs rhs : Expr)
    (st st1 st2 st3 : GenState) (lv rv rv2 ib : Nat) (blk : BlockObj)
    (hl : emitE lhs st = (Except.ok lv, st1))
    (hr : emitE rhs st1 = (Except.ok rv, st2))
    (hload : createLoadIfAlloca rv st2 = (Except.ok rv2, st3))
    (hib : st3.insertPoint = some ib) (hblk : st3.blocks ib = some blk) :
    emitBinaryExpression emitE .equalsToken lhs rhs st =
      (Except.ok st3.numValues, withNewInstr st3 ib blk "" (.store rv2 lv))
    ∧ (withNewInstr st3 ib blk "" (.store rv2 lv)).values st3.numValues
      = some ⟨"", .instr (.store rv2 lv)⟩ := by
  constructor
  · simp only [emitBinaryExpression, bind_def]
    rw [M.bind_run hl, M.bind_run hr]
    simp only [createStore, bind_def]
    rw [M.bind_run hload]
    exact emitInstr_run "" (.store rv2 lv) st3 ib blk hib hblk
  · simp [withNewInstr]

/-- Witness for C10: a concrete assignment run returns the store instruction id. -/
theorem claim_C10_assignment_result_witness :
    emitBinaryExpression (fun _ => M.pure 0) .equalsToken (.ident "a") (.ident "b") testState
      = (Except.ok 1, withNewInstr testState 1 ⟨"body", 0, []⟩ "" (.store 0 0))
    ∧ (withNewInstr testState 1 ⟨"body", 0, []⟩ "" (.store 0 0)).values 1
      = some ⟨"", .instr (.store 0 0)⟩ :=
  claim_C10_assignment_result (fun _ => M.pure 0) (.ident "a") (.ident "b")
    testState testState testState testState 0 0 0 1 ⟨"body", 0, []⟩ rfl rfl rfl rfl rfl

/-- Whether an expression is a bare identifier (the ts.isIdentifier test). -/
def isIdentExpr : Expr → Bool
  | .ident _ => true
  | _ => false

/-- C7: qualified access a.b — when a is a bare identifier resolving to a namespace
scope, the result is exactly the binding found by looking b up directly inside that
scope (scopeGetDirect searches no ancestors); when a is not a plain identifier, or
resolves to an ordinary value instead of a scope, lowering fails with the fatal
object-property-access error. -/
theorem claim_C7_qualified_access (st : GenState) (aName bName : String) (sIdx vid w : Nat)
    (sc : ScopeObj) :
    (resolveInStack st st.scopeStack aName = some (.scope sIdx) →
     st.scopes sIdx = some sc →
     lookupBinding sc.bindings bName = some (.val vid) →
     emitPropertyAccessExpression (.ident aName) bName st = (Except.ok vid, st)
       ∧ scopeGetDirect sIdx bName st = (Except.ok (.val vid), st))
    ∧ (∀ t : Expr, isIdentExpr t = false →
       emitPropertyAccessExpression t bName st
         = (Except.error (.unsupported "Object property access not implemented yet"), st))
    ∧ (resolveInStack st st.scopeStack aName = some (.val w) →
       emitPropertyAccessExpression (.ident aName) bName st
         = (Except.error (.unsupported "Object property access not implemented yet"), st)) := by
  refine ⟨fun h1 h2 h3 => ⟨?_, ?_⟩, fun t ht => ?_, fun h1 => ?_⟩
  · simp [emitPropertyAccessExpression, symbolTableGet, h1, scopeGetDirect, h2, h3]
  · simp [scopeGetDirect, h2, h3]
  · cases t <;> simp_all [isIdentExpr, emitPropertyAccessExpression, errorV]
  · simp [emitPropertyAccessExpression, symbolTableGet, h1, errorV]

/-- A concrete state with a namespace M containing g (value 0), and an ordinary
binding w, for the C7 witness. -/
def nsState : GenState where
  numValues := 1
  values := fun i => if i = 0 then some ⟨"M__g", .funcRef 0⟩ else none
  numBlocks := 0
  blocks := fun _ => none
  functions := [⟨"M__g", .void, [], [], []⟩]
  insertPoint := none
  numScopes := 2
  scopes := fun i =>
    if i = 0 then some ⟨none, [("M", .scope 1), ("w", .val 0)]⟩
    else if i = 1 then some ⟨some "M", [("g", .val 0)]⟩ else none
  scopeStack := [0]
  warnings := []

/-- Witness for C7: M.g resolves to the direct member; a non-identifier target and a
non-scope target both fail fatally. -/
theorem claim_C7_qualified_access_witness :
    (emitPropertyAccessExpression (.ident "M") "g" nsState = (Except.ok 0, nsState)
      ∧ scopeGetDirect 1 "g" nsState = (Except.ok (.val 0), nsState))
    ∧ emitPropertyAccessExpression (.boolLit true) "g" nsState
      = (Except.error (.unsupported "Object property access not implemented yet"), nsState)
    ∧ emitPropertyAccessExpression (.ident "w") "g" nsState
      = (Except.error (.unsupported "Object property access not implemented yet"), nsState) :=
  ⟨(claim_C7_qualified_access nsState "M" "g" 1 0 0 ⟨some "M", [("g", .val 0)]⟩).1
      (by simp [nsState, resolveInStack, lookupBinding])
      (by simp [nsState])
      (by simp [lookupBinding]),
   (claim_C7_qualified_access nsState "M" "g" 1 0 0 ⟨some "M", [("g", .val 0)]⟩).2.1
      (.boolLit true) rfl,
   (claim_C7_qualified_access nsState "w" "g" 1 0 0 ⟨some "M", [("g", .val 0)]⟩).2.2
      (by simp [nsState, resolveInStack, lookupBinding])⟩

/-- C8: an unhandled statement or top-level node kind is recoverable — the node is
skipped with a warning naming the kind and the next sibling is still lowered — while
an unhandled expression kind, and an unhandled binary operator, abort fatally with
the kind's label in the error. -/
theorem claim_C8_error_policy (f sc : Nat) (k kE kO : String) (st : GenState) (rest : List Node)
    (emitE : Expr → M Nat) (lhs rhs : Expr) (lv rv : Nat) (st1 st2 : GenState)
    (hl : emitE lhs st = (Except.ok lv, st1)) (hr : emitE rhs st1 = (Except.ok rv, st2)) :
    emitNode (f + 1) (.otherNode k) sc st
      = (Except.ok (), { st with warnings := st.warnings ++ ["Unhandled ts.Node " ++ k] })
    ∧ forEachChild (emitNode (f + 1)) (.otherNode k :: rest) sc st
      = forEachChild (emitNode (f + 1)) rest sc
          { st with warnings := st.warnings ++ ["Unhandled ts.Node " ++ k] }
    ∧ emitExpression (f + 1) (.otherExpr kE) st
      = (Except.error (.unsupported ("Unhandled ts.Expression " ++ kE)), st)
    ∧ emitBinaryExpression emitE (.otherOp kO) lhs rhs st
      = (Except.error (.unsupported ("Unhandled ts.BinaryExpression operator " ++ kO)), st2) := by
  have hwarn : emitNode (f + 1) (.otherNode k) sc st
      = (Except.ok (), { st with warnings := st.warnings ++ ["Unhandled ts.Node " ++ k] }) := by
    simp [emitNode, emitNodeF, warn]
  refine ⟨hwarn, ?_, ?_, ?_⟩
  · simp only [forEachChild, bind_def]
    rw [M.bind_run hwarn]
  · simp [emitExpression, emitExpressionF, errorV]
  · simp only [emitBinaryExpression, bind_def]
    rw [M.bind_run hl, M.bind_run hr]
    simp [errorV]

/-- Witness for C8: a concrete unhandled statement kind warns and continues; a
concrete unhandled expression kind and operator fail fatally. -/
theorem claim_C8_error_policy_witness :
    emitNode 1 (.otherNode "ForStatement") 0 testState
      = (Except.ok (),
         { testState with
             warnings := testState.warnings ++ ["Unhandled ts.Node " ++ "ForStatement"] })
    ∧ forEachChild (emitNode 1) [.otherNode "ForStatement", .endOfFile] 0 testState
      = forEachChild (emitNode 1) [.endOfFile] 0
          { testState with
              warnings := testState.warnings ++ ["Unhandled ts.Node " ++ "ForStatement"] }
    ∧ emitExpression 1 (.otherExpr "ArrowFunction") testState
      = (Except.error (.unsupported ("Unhandled ts.Expression " ++ "ArrowFunction")), testState)
    ∧ emitBinaryExpression (fun _ => M.pure 0) (.otherOp "MinusToken") (.ident "a") (.ident "b")
        testState
      = (Except.error
           (.unsupported ("Unhandled ts.BinaryExpression operator " ++ "MinusToken")),
         testState) :=
  claim_C8_error_policy 0 0 "ForStatement" "ArrowFunction" "MinusToken" testState [.endOfFile]
    (fun _ => M.pure 0) (.ident "a") (.ident "b") 0 0 testState testState rfl rfl

/-- C9: a function declaration without a body still creates the external IR function
under its mangled name and registers it in the module, runs the per-function
verification (which passes: there are no blocks), and binds the function value into
the enclosing scope under the unmangled simple name — while creating no basic block,
entering no scope, and leaving the builder untouched. -/
theorem claim_C9_bodyless_declaration (emitN : Node → Nat → M Unit) (fname : String)
    (params : List Param) (retTs : TsType) (parentScope : Nat) (st : GenState)
    (ps : ScopeObj) (hps : st.scopes parentScope = some ps) :
    (emitFunctionDeclaration emitN fname params retTs none parentScope st).1 = Except.ok ()
    ∧ (emitFunctionDeclaration emitN fname params retTs none parentScope st).2.functions.length
      = st.functions.length + 1
    ∧ ((emitFunctionDeclaration emitN fname params retTs none parentScope
          st).2.functions.get? st.functions.length).map
        (fun fn => (fn.name, fn.retType, fn.paramTypes, fn.blockIds))
      = some (mangleFunctionDeclaration fname ps.name, getLLVMType retTs,
              params.map (fun p => getLLVMType p.ptype), ([] : List Nat))
    ∧ (emitFunctionDeclaration emitN fname params retTs none parentScope
          st).2.values (st.numValues + params.length)
      = some ⟨mangleFunctionDeclaration fname ps.name, .funcRef st.functions.length⟩
    ∧ (emitFunctionDeclaration emitN fname params retTs none parentScope st).2.numBlocks
      = st.numBlocks
    ∧ (emitFunctionDeclaration emitN fname params retTs none parentScope st).2.blocks
      = st.blocks
    ∧ (emitFunctionDeclaration emitN fname params retTs none parentScope st).2.insertPoint
      = st.insertPoint
    ∧ (emitFunctionDeclaration emitN fname params retTs none parentScope st).2.numScopes
      = st.numScopes
    ∧ (emitFunctionDeclaration emitN fname params retTs none parentScope st).2.scopeStack
      = st.scopeStack
    ∧ (emitFunctionDeclaration emitN fname params retTs none parentScope st).2.scopes parentScope
      = some ⟨ps.name,
              setBinding ps.bindings fname (.val (st.numValues + params.length))⟩ := by
  obtain ⟨l, vf, hcf⟩ := createFunction_run (mangleFunctionDeclaration fname ps.name)
    (getLLVMType retTs) (params.map (fun p => getLLVMType p.ptype)) st
  have hrun : emitFunctionDeclaration emitN fname params retTs none parentScope st
      = (Except.ok (),
         { st with
             numValues := st.numValues + params.length + 1
             values := fun i =>
               if i = st.numValues + params.length then
                 some ⟨mangleFunctionDeclaration fname ps.name,
                       .funcRef st.functions.length⟩
               else vf i
             functions :=
               st.functions ++
                 [⟨mangleFunctionDeclaration fname ps.name, getLLVMType retTs,
                   params.map (fun p => getLLVMType p.ptype), l, []⟩]
             scopes := fun i =>
               if i = parentScope then
                 some ⟨ps.name,
                       setBinding ps.bindings fname (.val (st.numValues + params.length))⟩
               else st.scopes i }) := by
    simp only [emitFunctionDeclaration, bind_def]
    rw [M.bind_run (show getScopeName parentScope st = (Except.ok ps.name, st) by
      simp [getScopeName, hps])]
    rw [M.bind_run hcf]
    simp only [bind_def, M.bind, pure_def, M.pure, verifyFunction, scopeSet, List.length_map,
      List.get?_eq_getElem?, List.getElem?_concat_length]
    simp [hps, List.length_map]
  rw [hrun]
  simp [List.get?_eq_getElem?, List.getElem?_concat_length]

/-- Witness for C9: a concrete body-less declaration `declare function f(a: boolean): void`
at the global scope. -/
theorem claim_C9_bodyless_declaration_witness :
    (emitFunctionDeclaration (fun _ _ => M.pure ()) "f" [⟨"a", TsType.boolean⟩] TsType.void none 0
        initialState).1 = Except.ok ()
    ∧ (emitFunctionDeclaration (fun _ _ => M.pure ()) "f" [⟨"a", TsType.boolean⟩] TsType.void none
        0 initialState).2.functions.length = 1
    ∧ ((emitFunctionDeclaration (fun _ _ => M.pure ()) "f" [⟨"a", TsType.boolean⟩] TsType.void none
        0 initialState).2.functions.get? 0).map
        (fun fn => (fn.name, fn.retType, fn.paramTypes, fn.blockIds))
      = some (mangleFunctionDeclaration "f" none, LLType.void, [LLType.i1], ([] : List Nat))
    ∧ (emitFunctionDeclaration (fun _ _ => M.pure ()) "f" [⟨"a", TsType.boolean⟩] TsType.void none
        0 initialState).2.values 1
      = some ⟨mangleFunctionDeclaration "f" none, .funcRef 0⟩
    ∧ (emitFunctionDeclaration (fun _ _ => M.pure ()) "f" [⟨"a", TsType.boolean⟩] TsType.void none
        0 initialState).2.numBlocks = 0
    ∧ (emitFunctionDeclaration (fun _ _ => M.pure ()) "f" [⟨"a", TsType.boolean⟩] TsType.void none
        0 initialState).2.blocks = initialState.blocks
    ∧ (emitFunctionDeclaration (fun _ _ => M.pure ()) "f" [⟨"a", TsType.boolean⟩] TsType.void none
        0 initialState).2.insertPoint = none
    ∧ (emitFunctionDeclaration (fun _ _ => M.pure ()) "f" [⟨"a", TsType.boolean⟩] TsType.void none
        0 initialState).2.numScopes = 1
    ∧ (emitFunctionDeclaration (fun _ _ => M.pure ()) "f" [⟨"a", TsType.boolean⟩] TsType.void none
        0 initialState).2.scopeStack = [0]
    ∧ (emitFunctionDeclaration (fun _ _ => M.pure ()) "f" [⟨"a", TsType.boolean⟩] TsType.void none
        0 initialState).2.scopes 0 = some ⟨none, [("f", BoundValue.val 1)]⟩ :=
  claim_C9_bodyless_declaration (fun _ _ => M.pure ()) "f" [⟨"a", TsType.boolean⟩] TsType.void 0
    initialState ⟨none, []⟩ rfl

/-- C6: one variable declaration, with the initializer already lowered and
load-resolved to v2.  If declared immutable: no value and no instruction is created
(numValues and all blocks unchanged), the declared name is written onto the value
only when it carried none, and the value itself is bound under the declared name.
If declared mutable: a stack slot of the resolved type, named by the declaration and
with id st2.numValues, is appended to the entry block of the current function — not
to the insertion block — a store of v2 into the slot is appended to the insertion
block, and the slot is what gets bound. -/
theorem claim_C6_variable_lowering (emitE : Expr → M Nat) (d : VarDeclT) (parentScope : Nat)
    (st st1 st2 : GenState) (v v2 ib entryId : Nat) (blk eblk : BlockObj) (fn : LLFunction)
    (sc : ScopeObj) (vo : ValObj)
    (hinit : emitE d.init st = (Except.ok v, st1))
    (hload : createLoadIfAlloca v st1 = (Except.ok v2, st2))
    (hvo : st2.values v2 = some vo)
    (hib : st2.insertPoint = some ib)
    (hblk : st2.blocks ib = some blk)
    (hfn : st2.functions.get? blk.parentFn = some fn)
    (hentry : fn.blockIds.head? = some entryId)
    (heblk : st2.blocks entryId = some eblk)
    (hne : entryId ≠ ib)
    (hsc : st2.scopes parentScope = some sc) :
    (d.isConst = true →
      (emitVarDecl emitE d parentScope st).1 = Except.ok ()
      ∧ (emitVarDecl emitE d parentScope st).2.numValues = st2.numValues
      ∧ (emitVarDecl emitE d parentScope st).2.blocks = st2.blocks
      ∧ (emitVarDecl emitE d parentScope st).2.values v2
        = some ⟨(if vo.name = "" then d.vname else vo.name), vo.kind⟩
      ∧ (emitVarDecl emitE d parentScope st).2.scopes parentScope
        = some ⟨sc.name, setBinding sc.bindings d.vname (.val v2)⟩)
    ∧ (d.isConst = false →
      (emitVarDecl emitE d parentScope st).1 = Except.ok ()
      ∧ (emitVarDecl emitE d parentScope st).2.values st2.numValues
        = some ⟨d.vname, .instr (.alloca (getLLVMType d.vtype))⟩
      ∧ (emitVarDecl emitE d parentScope st).2.values (st2.numValues + 1)
        = some ⟨"", .instr (.store v2 st2.numValues)⟩
      ∧ (emitVarDecl emitE d parentScope st).2.blocks entryId
        = some ⟨eblk.name, eblk.parentFn, eblk.instrs ++ [st2.numValues]⟩
      ∧ (emitVarDecl emitE d parentScope st).2.blocks ib
        = some ⟨blk.name, blk.parentFn, blk.instrs ++ [st2.numValues + 1]⟩
      ∧ (emitVarDecl emitE d parentScope st).2.scopes parentScope
        = some ⟨sc.name, setBinding sc.bindings d.vname (.val st2.numValues)⟩) := by
  constructor
  · intro hc
    have hrun : emitVarDecl emitE d parentScope st =
        (Except.ok (),
         { (if vo.name = "" then
              { st2 with
                  values := fun i => if i = v2 then some ⟨d.vname, vo.kind⟩ else st2.values i }
            else st2) with
             scopes := fun i =>
               if i = parentScope then some ⟨sc.name, setBinding sc.bindings d.vname (.val v2)⟩
               else (if vo.name = "" then
                       { st2 with
                           values := fun i =>
                             if i = v2 then some ⟨d.vname, vo.kind⟩ else st2.values i }
                     else st2).scopes i }) := by
      simp only [emitVarDecl, bind_def]
      rw [M.bind_run hinit, M.bind_run hload]
      simp only [hc, if_pos, bind_def, valueHasName, M.bind, hvo]
      by_cases hnm : vo.name = ""
      · simp [hnm, setValueName, hvo, scopeSet, hsc]
      · simp [hnm, scopeSet, hsc]
    rw [hrun]
    by_cases hnm : vo.name = ""
    · simp [hnm]
    · simp [hnm, hvo]
  · intro hc
    have hrun : emitVarDecl emitE d parentScope st =
        (Except.ok (),
         { st2 with
             numValues := st2.numValues + 1 + 1
             values := fun i =>
               if i = st2.numValues + 1 then some ⟨"", .instr (.store v2 st2.numValues)⟩
               else if i = st2.numValues then
                 some ⟨d.vname, .instr (.alloca (getLLVMType d.vtype))⟩
               else st2.values i
             blocks := fun i =>
               if i = ib then some ⟨blk.name, blk.parentFn, blk.instrs ++ [st2.numValues + 1]⟩
               else if i = entryId then
                 some ⟨eblk.name, eblk.parentFn, eblk.instrs ++ [st2.numValues]⟩
               else st2.blocks i
             scopes := fun i =>
               if i = parentScope then
                 some ⟨sc.name, setBinding sc.bindings d.vname (.val st2.numValues)⟩
               else st2.scopes i }) := by
      simp only [emitVarDecl, bind_def]
      rw [M.bind_run hinit, M.bind_run hload]
      simp only [hc, Bool.false_eq_true, if_false, bind_def, createEntryBlockAlloca,
        currentFunction, getInsertBlock, getBlockObj, getEntryBlock, M.bind, hib, hblk, hfn,
        hentry, newValue, appendInstrToBlock, heblk, createStore, emitInstr, pure_def, M.pure,
        scopeSet]
      have h1 : st2.blocks entryId = some eblk := heblk
      have h2 : ib ≠ entryId := fun h => hne h.symm
      simp [h2, hblk, hsc, hne]
    rw [hrun]
    have hne2 : st2.numValues ≠ st2.numValues + 1 := by omega
    simp [hne, hne2]

/-- Witness for C6: lowering the mutable declaration `let x = true` with the builder
positioned away from the entry block — the alloca (value 1) lands in the entry
block, the store (value 2) in the insertion block, and the slot is bound. -/
theorem claim_C6_variable_lowering_witness :
    (emitVarDecl (fun _ => M.pure 0) ⟨"x", false, TsType.boolean, .boolLit true⟩ 0 testState).1
      = Except.ok ()
    ∧ (emitVarDecl (fun _ => M.pure 0) ⟨"x", false, TsType.boolean, .boolLit true⟩ 0
        testState).2.values 1 = some ⟨"x", .instr (.alloca .i1)⟩
    ∧ (emitVarDecl (fun _ => M.pure 0) ⟨"x", false, TsType.boolean, .boolLit true⟩ 0
        testState).2.values 2 = some ⟨"", .instr (.store 0 1)⟩
    ∧ (emitVarDecl (fun _ => M.pure 0) ⟨"x", false, TsType.boolean, .boolLit true⟩ 0
        testState).2.blocks 0 = some ⟨"entry", 0, [1]⟩
    ∧ (emitVarDecl (fun _ => M.pure 0) ⟨"x", false, TsType.boolean, .boolLit true⟩ 0
        testState).2.blocks 1 = some ⟨"body", 0, [2]⟩
    ∧ (emitVarDecl (fun _ => M.pure 0) ⟨"x", false, TsType.boolean, .boolLit true⟩ 0
        testState).2.scopes 0 = some ⟨none, [("x", BoundValue.val 1)]⟩ :=
  (claim_C6_variable_lowering (fun _ => M.pure 0) ⟨"x", false, TsType.boolean, .boolLit true⟩ 0
      testState testState testState 0 0 1 0 ⟨"body", 0, []⟩ ⟨"entry", 0, []⟩
      ⟨"f", .void, [], [], [0, 1]⟩ ⟨none, []⟩ ⟨"", .constInt .i1 1⟩
      rfl rfl rfl rfl rfl rfl rfl rfl (by decide) rfl).2 rfl
